import Mathlib

/-!
Verification of the khinsider downloader core: URL classification,
percent-decoding of track names, the expiring object cache, the memoizing
resolver layer, the retry policy and the concurrent download engine, each
embedded shallowly from the repository sources.
-/

namespace Khinsider

/-! ## URL classifier (src/khinsider/util.py, src/khinsider/constants.py)

KHINSIDER_URL_REGEX is
"https://downloads.khinsider.com/game-soundtracks/album/([^\s/]+)/?([^\s/]+)?"
matched with re.match (anchored prefix match). Strings are modelled as
List Char; Python's \s class is modelled by its ASCII fragment, which covers
every character the theorems below touch. -/

/-- Characters of Python's regex class \s (ASCII fragment: space, tab,
newline, carriage return, vertical tab, form feed). -/
def pythonSpace (c : Char) : Bool :=
  c == ' ' || c == '\t' || c == '\n' || c == '\r' ||
    c == Char.ofNat 11 || c == Char.ofNat 12

/-- Characters accepted inside a captured slug or track-name segment by
KHINSIDER_URL_REGEX, i.e. the class excluding whitespace and the slash. -/
def slugChar (c : Char) : Bool :=
  !(pythonSpace c || c == '/')

/-- Literal prefix of KHINSIDER_URL_REGEX, equal to ALBUM_BASE_URL from
src/khinsider/constants.py followed by a slash. -/
def khinsider_album_root : List Char :=
  "https://downloads.khinsider.com/game-soundtracks/album/".toList

/-- Matching of a literal pattern at the start of the input: returns the
remaining input when the pattern is a leading segment, none otherwise. -/
def dropPref? : List Char → List Char → Option (List Char)
  | [], rest => some rest
  | _ :: _, [] => none
  | p :: ps, c :: cs => if c = p then dropPref? ps cs else none

/-- Consumption of the optional slash written as the regex piece between the
two capture groups of KHINSIDER_URL_REGEX. -/
def stripSlash : List Char → List Char
  | '/' :: r => r
  | r => r

/-- Embedding of util.parse_khinsider_url: anchored match of
KHINSIDER_URL_REGEX against the url, returning (match[1], match[2] or '').
Group 1 is the greedy nonempty run of slug characters after the literal
prefix, then an optional slash, then the optional greedy group 2; a failed
match (util raises InvalidUrl) is none.  Greedy maximal munch is exact here
because everything after each captured group in the pattern is
epsilon-accepting, so Python's backtracking never retracts a capture. -/
def parse_khinsider_url (url : List Char) : Option (List Char × List Char) :=
  match dropPref? khinsider_album_root url with
  | none => none
  | some rest =>
    let slug := rest.takeWhile slugChar
    if slug.isEmpty then none
    else
      some (slug, (stripSlash (rest.dropWhile slugChar)).takeWhile slugChar)

/-- Embedding of models.Album.url / models.AlbumShort.url: the album page
url rebuilt from a slug as ALBUM_BASE_URL/slug. -/
def album_url (slug : List Char) : List Char :=
  khinsider_album_root ++ slug

/-- Track page url as rebuilt in api.get_track:
KHINSIDER_BASE_URL/game-soundtracks/album/album_slug/track_name. -/
def track_page_url (slug name : List Char) : List Char :=
  khinsider_album_root ++ slug ++ '/' :: name

/-- Url rebuilt from a classified reference: the album page url when the
track-name component is empty, the track page url otherwise. -/
def ref_url (slug name : List Char) : List Char :=
  if name.isEmpty then album_url slug else track_page_url slug name

/-! ### Helper lemmas about munching runs of characters -/

theorem dropPref?_append (p r : List Char) : dropPref? p (p ++ r) = some r := by
  induction p with
  | nil => rfl
  | cons c cs ih => simp [dropPref?, ih]

theorem all_takeWhile (p : Char → Bool) (l : List Char) :
    (l.takeWhile p).all p = true := by
  induction l with
  | nil => rfl
  | cons c cs ih =>
    by_cases h : p c
    · simp [List.takeWhile, h, ih]
    · simp [List.takeWhile, h]

theorem takeWhile_of_all {p : Char → Bool} {l : List Char}
    (h : l.all p = true) : l.takeWhile p = l := by
  induction l with
  | nil => rfl
  | cons c cs ih =>
    simp only [List.all_cons, Bool.and_eq_true] at h
    simp [List.takeWhile, h.1, ih h.2]

theorem dropWhile_of_all {p : Char → Bool} {l : List Char}
    (h : l.all p = true) : l.dropWhile p = [] := by
  induction l with
  | nil => rfl
  | cons c cs ih =>
    simp only [List.all_cons, Bool.and_eq_true] at h
    simp [List.dropWhile, h.1, ih h.2]

theorem takeWhile_append_stop {p : Char → Bool} {l : List Char}
    (hl : l.all p = true) {c : Char} (hc : p c = false) (r : List Char) :
    (l ++ c :: r).takeWhile p = l := by
  induction l with
  | nil => simp [List.takeWhile, hc]
  | cons a as ih =>
    simp only [List.all_cons, Bool.and_eq_true] at hl
    simp [List.takeWhile, hl.1, ih hl.2]

theorem dropWhile_append_stop {p : Char → Bool} {l : List Char}
    (hl : l.all p = true) {c : Char} (hc : p c = false) (r : List Char) :
    (l ++ c :: r).dropWhile p = c :: r := by
  induction l with
  | nil => simp [List.dropWhile, hc]
  | cons a as ih =>
    simp only [List.all_cons, Bool.and_eq_true] at hl
    simp [List.dropWhile, hl.1, ih hl.2]

/-- Shape of a successful classification: the slug is a nonempty run of slug
characters and the track name is a (possibly empty) run of slug characters. -/
theorem parse_khinsider_url_shape {url s t : List Char}
    (h : parse_khinsider_url url = some (s, t)) :
    s.all slugChar = true ∧ s ≠ [] ∧ t.all slugChar = true := by
  unfold parse_khinsider_url at h
  cases hd : dropPref? khinsider_album_root url with
  | none => rw [hd] at h; cases h
  | some rest =>
    rw [hd] at h
    simp only at h
    by_cases hs : (rest.takeWhile slugChar).isEmpty
    · rw [if_pos hs] at h; cases h
    · rw [if_neg hs] at h
      injection h with h'
      injection h' with h1 h2
      subst h1; subst h2
      refine ⟨all_takeWhile _ _, ?_, all_takeWhile _ _⟩
      intro hnil
      rw [hnil] at hs
      exact hs rfl

theorem slugChar_slash : slugChar '/' = false := by decide

/-- CLAIM C7: url classification round-trips — for every url the classifier
accepts, rebuilding a url from the returned (slug, track-name) reference
(album page url for an empty track name, track page url otherwise, so the
presence of the second captured segment is the sole discriminator) and
classifying the rebuilt url returns the original reference. -/
theorem parse_khinsider_url_roundtrip {url s t : List Char}
    (h : parse_khinsider_url url = some (s, t)) :
    parse_khinsider_url (ref_url s t) = some (s, t) := by
  obtain ⟨hs_all, hs_ne, ht_all⟩ := parse_khinsider_url_shape h
  cases ht : t with
  | nil =>
    rw [ref_url, album_url]
    simp only [List.isEmpty_nil, if_true]
    unfold parse_khinsider_url
    rw [dropPref?_append]
    simp only
    rw [takeWhile_of_all hs_all, dropWhile_of_all hs_all]
    rw [if_neg (by simpa using hs_ne)]
    rfl
  | cons c t' =>
    rw [ref_url, track_page_url]
    simp only [List.isEmpty_cons, if_false, Bool.false_eq_true]
    unfold parse_khinsider_url
    rw [List.append_assoc, dropPref?_append]
    simp only
    rw [← ht]
    have htw := takeWhile_append_stop hs_all slugChar_slash t
    have hdw := dropWhile_append_stop hs_all slugChar_slash t
    rw [htw, hdw]
    rw [if_neg (by simpa using hs_ne)]
    simp only [stripSlash]
    rw [takeWhile_of_all ht_all]

/-- CLAIM C7 witness: classification of a concrete track url and round trip
through the rebuilt url. -/
theorem parse_khinsider_url_roundtrip_witness :
    parse_khinsider_url
        "https://downloads.khinsider.com/game-soundtracks/album/mother-3/01%2520title.mp3".toList
      = some ("mother-3".toList, "01%2520title.mp3".toList) ∧
    parse_khinsider_url (ref_url "mother-3".toList "01%2520title.mp3".toList)
      = some ("mother-3".toList, "01%2520title.mp3".toList) := by
  refine ⟨by decide, ?_⟩
  exact @parse_khinsider_url_roundtrip
    "https://downloads.khinsider.com/game-soundtracks/album/mother-3/01%2520title.mp3".toList
    "mother-3".toList "01%2520title.mp3".toList (by decide)

/-! ## Track-name percent decoding (src/khinsider/util.py full_unquote,
src/khinsider/models.py AudioTrack.filename)

The urllib.parse.unquote collaborator is modelled at the single-byte level:
a percent escape %XY with hexadecimal digits becomes the character with code
16*X+Y and anything else is copied verbatim (Python's additional UTF-8
recombination of consecutive escapes above 0x7F is outside every theorem
below, which only touch ASCII results). -/

/-- Value of one hexadecimal digit, as recognised inside a percent escape,
decided on the character's code point (48-57 are the digits, 65-70 and
97-102 the upper and lower hex letters). -/
def hexDigit? (c : Char) : Option Nat :=
  let n := c.toNat
  if 48 ≤ n ∧ n ≤ 57 then some (n - 48)
  else if 65 ≤ n ∧ n ≤ 70 then some (n - 55)
  else if 97 ≤ n ∧ n ≤ 102 then some (n - 87)
  else none

/-- One pass of urllib.parse.unquote: decode every percent escape, leaving
malformed escapes (missing or non-hexadecimal digits) untouched. -/
def pct_decode : List Char → List Char
  | '%' :: a :: b :: rest2 =>
    match hexDigit? a, hexDigit? b with
    | some hi, some lo => Char.ofNat (16 * hi + lo) :: pct_decode rest2
    | _, _ => '%' :: pct_decode (a :: b :: rest2)
  | c :: rest => c :: pct_decode rest
  | [] => []

/-- Embedding of util.full_unquote: urllib.parse.unquote applied
quote_layers times (the loop over range(quote_layers)). -/
def full_unquote (s : List Char) (quoteLayers : Nat) : List Char :=
  match quoteLayers with
  | 0 => s
  | n + 1 => full_unquote (pct_decode s) n

/-- Embedding of models.AudioTrack.filename: full_unquote (with its default
of two layers) of the track-name segment extracted from the track's page
url; none when parse_khinsider_url rejects the page url (InvalidUrl). -/
def audio_track_filename (pageUrl : List Char) : Option (List Char) :=
  (parse_khinsider_url pageUrl).map (fun st => full_unquote st.2 2)

/-- CLAIM C8: the derived local filename is the track-name segment of the
page url with url-unquoting applied exactly twice, so a double-encoded
segment decodes to the fully unescaped human-readable name. -/
theorem audio_track_filename_double_unquote {pageUrl s t : List Char}
    (h : parse_khinsider_url pageUrl = some (s, t)) :
    audio_track_filename pageUrl = some (pct_decode (pct_decode t)) := by
  rw [audio_track_filename, h]
  rfl

/-- CLAIM C8 witness: a concrete double-percent-encoded track name, where
the escape %2520 becomes a single space after the two decoding passes. -/
theorem audio_track_filename_double_unquote_witness :
    audio_track_filename
        "https://downloads.khinsider.com/game-soundtracks/album/mother-3/01%2520title.mp3".toList
      = some "01 title.mp3".toList ∧
    pct_decode (pct_decode "01%2520title.mp3".toList) = "01 title.mp3".toList := by
  constructor
  · have h := @audio_track_filename_double_unquote
      "https://downloads.khinsider.com/game-soundtracks/album/mother-3/01%2520title.mp3".toList
      "mother-3".toList "01%2520title.mp3".toList (by decide)
    rw [h]
    decide
  · decide

/-! ## Object cache (src/khinsider/cache.py CacheManager)

Wall-clock time is modelled as whole seconds (Nat); datetime.now() becomes
an explicit now argument threaded through each operation.  The table, a
Python dict keyed by md5 hex digests, is an association list with unique
keys updated in place.  get_object_md5 (util.py) hashes str(obj); it is
modelled as the rendered string itself, an injective fingerprint, since
md5 collisions play no role in the spec.  The values stored are left as a
type parameter with a render function standing for Python's str(). -/

/-- Embedding of util.get_object_md5 as an injective fingerprint of the
rendered object. -/
def get_object_md5 (rendered : String) : String := rendered

/-- Number of seconds in one day, the wrap-around modulus of
datetime.timedelta.seconds. -/
def daySeconds : Nat := 86400

/-- Embedding of the .seconds attribute of a nonnegative
datetime.timedelta of age whole seconds: the seconds component after whole
days are split off. -/
def timedeltaSeconds (age : Nat) : Nat := age % daySeconds

/-- State of cache.CacheManager: the private table mapping md5 key to
(object, insertion datetime), and the configured lifespan in seconds. -/
structure CacheManager (α : Type) where
  table : List (String × α × Nat)
  lifespan : Nat
  deriving DecidableEq, Repr

/-- Python dict assignment table[key] = value: replace the entry for the
key when present, append it otherwise. -/
def setEntry {α : Type} : List (String × α × Nat) → String → α × Nat →
    List (String × α × Nat)
  | [], k, v => [(k, v)]
  | (k', v') :: rest, k, v =>
    if k' = k then (k, v) :: rest else (k', v') :: setEntry rest k v

/-- Python dict lookup table[key] on the cache table. -/
def lookupEntry {α : Type} : List (String × α × Nat) → String → Option (α × Nat)
  | [], _ => none
  | (k', v') :: rest, k => if k' = k then some v' else lookupEntry rest k

/-- Embedding of CacheManager.cache_object: rendering of the key value (the
object itself when key_value is unset or Python-falsy, modelled by none or
the empty rendering), md5 of that rendering, storage of (obj, now) under
the digest and return of the digest together with the new state. -/
def cache_object {α : Type} (m : CacheManager α) (render : α → String)
    (obj : α) (keyValue : Option String) (now : Nat) :
    CacheManager α × String :=
  let kv :=
    match keyValue with
    | none => render obj
    | some s => if s = "" then render obj else s
  let digest := get_object_md5 kv
  ({ m with table := setEntry m.table digest (obj, now) }, digest)

/-- Embedding of CacheManager.get_cached_object: the stored object under
the key, none when the key is absent; the insertion time is never
consulted. -/
def get_cached_object {α : Type} (m : CacheManager α) (key : String) :
    Option α :=
  (lookupEntry m.table key).map Prod.fst

/-- Embedding of CacheManager.delete_old_cache, the sweep tick: every entry
whose (datetime.now() - insertion).seconds is at least the lifespan is
collected and popped; the kept entries are exactly those with
timedeltaSeconds (now - inserted) < lifespan. -/
def delete_old_cache {α : Type} (m : CacheManager α) (now : Nat) :
    CacheManager α :=
  { m with
    table := m.table.filter
      (fun e => decide (timedeltaSeconds (now - e.2.2) < m.lifespan)) }

/-- Retimestamping of every entry of a cache table, used only to state that
reads are independent of entry ages. -/
def retimestamp {α : Type} (m : CacheManager α) (f : Nat → Nat) :
    CacheManager α :=
  { m with table := m.table.map (fun e => (e.1, e.2.1, f e.2.2)) }

theorem lookupEntry_setEntry {α : Type} (t : List (String × α × Nat))
    (k : String) (v : α × Nat) : lookupEntry (setEntry t k v) k = some v := by
  induction t with
  | nil => simp [setEntry, lookupEntry]
  | cons e rest ih =>
    by_cases h : e.1 = k
    · simp [setEntry, h, lookupEntry]
    · simp [setEntry, h, lookupEntry, ih]

theorem lookupEntry_retimestamp {α : Type} (t : List (String × α × Nat))
    (f : Nat → Nat) (k : String) :
    (lookupEntry (t.map (fun e => (e.1, e.2.1, f e.2.2))) k).map Prod.fst
      = (lookupEntry t k).map Prod.fst := by
  induction t with
  | nil => simp [lookupEntry]
  | cons e rest ih =>
    by_cases h : e.1 = k
    · simp [lookupEntry, h]
    · simp [lookupEntry, h, ih]

/-- CLAIM C6: a get through the handle returned by a put observes exactly
the stored value, for every value, key choice and insertion time; and reads
never filter on entry age — the result of get_cached_object is invariant
under arbitrary retimestamping of the table, so a read after an entry's
lifespan has elapsed but before the next sweep tick still returns the
stored value. -/
theorem get_cached_object_after_cache_object :
    (∀ (α : Type) (m : CacheManager α) (render : α → String) (obj : α)
        (keyValue : Option String) (now : Nat),
      get_cached_object (cache_object m render obj keyValue now).1
          (cache_object m render obj keyValue now).2 = some obj) ∧
    (∀ (α : Type) (m : CacheManager α) (f : Nat → Nat) (key : String),
      get_cached_object (retimestamp m f) key = get_cached_object m key) := by
  constructor
  · intro α m render obj keyValue now
    simp only [cache_object, get_cached_object]
    rw [lookupEntry_setEntry]
    rfl
  · intro α m f key
    simp only [get_cached_object, retimestamp]
    exact lookupEntry_retimestamp m.table f key

/-- CLAIM C2 (code bug): the sweep compares the lifespan against
timedelta.seconds, which wraps every day, instead of the total age.  With
lifespan 3600 s, an entry inserted at time 0 and a sweep tick at time 86410
(age one day and ten seconds, far past the lifespan), the entry survives
the sweep and a get still returns it, because 86410 % 86400 = 10 < 3600;
with the default lifespan of one day, 7200 % 86400 = 7200 < 86400, so even
a sweep long past expiry removes nothing.  The claim (and the method's own
docstring) requires both entries to be removed. -/
theorem delete_old_cache_misses_expired_entry :
    get_cached_object
        (delete_old_cache
          ({ table := [("k", 7, 0)], lifespan := 3600 } : CacheManager Nat)
          86410)
        "k" = some 7 ∧
    86410 - 0 ≥ 3600 ∧
    get_cached_object
        (delete_old_cache
          ({ table := [("k", 7, 0)], lifespan := 86400 } : CacheManager Nat)
          (2 * 86400 + 7200))
        "k" = some 7 ∧
    2 * 86400 + 7200 - 0 ≥ 86400 := by
  refine ⟨?_, by decide, ?_, by decide⟩ <;> rfl

/-- Decision of Python truthiness for the values a cached function may
return, supplied per value type when embedding decorators.cache. -/
def Truthy (α : Type) : Type := α → Bool

/-- Embedding of decorators.cache applied to a zero-argument view of one
call: the wrapper hashes the call signature, performs the walrus-guarded
lookup (a stored value only short-circuits when Python-truthy), otherwise
invokes the wrapped function and stores its result under the same
signature.  Returns the result, the cache state after the call, and
whether the wrapped function was invoked. -/
def cache_wrapper_call {α : Type} (m : CacheManager α) (render : α → String)
    (truthy : Truthy α) (callSignature : String) (func : Unit → α)
    (now : Nat) : α × CacheManager α × Bool :=
  let run : α × CacheManager α × Bool :=
    let result := func ()
    (result, (cache_object m render result (some callSignature) now).1, true)
  match get_cached_object m (get_object_md5 callSignature) with
  | some v => if truthy v then (v, m, false) else run
  | none => run

/-- CLAIM C10: the resolver-layer cache wrapper treats every falsy stored
result as a miss — when the value stored under the call signature is
Python-falsy, the wrapper re-invokes the wrapped function and overwrites
the stored entry with the new result, while a truthy stored value
short-circuits without invoking the function. -/
theorem cache_wrapper_falsy_is_miss {α : Type} (m : CacheManager α)
    (render : α → String) (truthy : Truthy α) (callSignature : String)
    (func : Unit → α) (now : Nat) (v : α)
    (hstored : get_cached_object m (get_object_md5 callSignature) = some v)
    (hsig : callSignature ≠ "") :
    (truthy v = false →
      cache_wrapper_call m render truthy callSignature func now
        = (func (),
           (cache_object m render (func ()) (some callSignature) now).1,
           true) ∧
      get_cached_object
          (cache_wrapper_call m render truthy callSignature func now).2.1
          (get_object_md5 callSignature) = some (func ())) ∧
    (truthy v = true →
      cache_wrapper_call m render truthy callSignature func now
        = (v, m, false)) := by
  constructor
  · intro hfalsy
    have hcall : cache_wrapper_call m render truthy callSignature func now
        = (func (),
           (cache_object m render (func ()) (some callSignature) now).1,
           true) := by
      rw [cache_wrapper_call]
      rw [hstored]
      simp [hfalsy]
    refine ⟨hcall, ?_⟩
    rw [hcall]
    simp only [cache_object, get_cached_object, if_neg hsig]
    rw [lookupEntry_setEntry]
    rfl
  · intro htruthy
    rw [cache_wrapper_call]
    rw [hstored]
    simp [htruthy]

/-- CLAIM C10 witness: a concrete cache holding an empty list (falsy) under
the signature of a call; the call re-invokes the function and overwrites
the entry, while a truthy sibling entry short-circuits. -/
theorem cache_wrapper_falsy_is_miss_witness :
    cache_wrapper_call
        ({ table := [("f/(1,)/", [], 5)], lifespan := 86400 } :
          CacheManager (List Nat))
        (fun _ => "r") (fun l => !l.isEmpty) "f/(1,)/" (fun _ => [3]) 9
      = ([3],
         { table := [("f/(1,)/", [3], 9)], lifespan := 86400 },
         true) := by
  have h := cache_wrapper_falsy_is_miss
    ({ table := [("f/(1,)/", [], 5)], lifespan := 86400 } :
      CacheManager (List Nat))
    (fun _ => "r") (fun l => !l.isEmpty) "f/(1,)/" (fun _ => [3]) 9 []
    (by rfl) (by decide)
  have h2 := (h.1 (by decide)).1
  rw [h2]
  rfl

/-! ## Retry policy (src/khinsider/decorators.py retry_if_timeout,
src/khinsider/api.py decorator stacks)

The wrapper is tenacity's
retry(retry=retry_if_exception_type(Timeout), stop=stop_after_attempt(5))
with every other option at its default, in particular reraise=False.
Tenacity then runs attempts numbered from 1; a non-retryable exception is
re-raised as is; a retryable one triggers another attempt unless the stop
condition attempt_number >= 5 holds, in which case tenacity raises its own
RetryError wrapping the last attempt.  The wrapped call is modelled by the
outcome of each attempt, a function from the attempt number. -/

/-- Exceptions crossing the retry layer: requests.exceptions.Timeout (the
retryable class) carrying an identity distinguishing distinct exception
objects, and exceptions.ObjectDoesNotExist raised by
validators.khinsider_object_exists for a definitive not-found page. -/
inductive FetchExc
  | timeout (eid : Nat)
  | notFound (eid : Nat)
  deriving DecidableEq, Repr

/-- Classification used by retry_if_exception_type(Timeout). -/
def isTimeout : FetchExc → Bool
  | .timeout _ => true
  | .notFound _ => false

/-- Result of a call through the retry wrapper: a normal return, an
exception surfaced unchanged, or tenacity's RetryError wrapping the final
attempt's exception after the stop condition fires. -/
inductive CallOutcome (α : Type)
  | ok (a : α)
  | exc (e : FetchExc)
  | retryError (last : FetchExc)
  deriving DecidableEq, Repr

/-- Truth of "this attempt raised a Timeout". -/
def timedOut {α : Type} : Except FetchExc α → Bool
  | .error e => isTimeout e
  | .ok _ => false

/-- Tenacity's attempt loop from attempt n with the given number of
further attempts allowed before the stop condition fires; returns the
outcome together with the number of the last attempt executed. -/
def retryFrom {α : Type} (f : Nat → Except FetchExc α) :
    Nat → Nat → CallOutcome α × Nat
  | n, 0 =>
    match f n with
    | .ok a => (.ok a, n)
    | .error e => if isTimeout e then (.retryError e, n) else (.exc e, n)
  | n, r + 1 =>
    match f n with
    | .ok a => (.ok a, n)
    | .error e => if isTimeout e then retryFrom f (n + 1) r else (.exc e, n)

/-- Embedding of decorators.retry_if_timeout (and the identical inline
stacks in api.py): attempts start at 1 and stop_after_attempt(5) allows
four further attempts after the first. -/
def retry_if_timeout {α : Type} (f : Nat → Except FetchExc α) :
    CallOutcome α × Nat :=
  retryFrom f 1 4

theorem timedOut_elim {α : Type} {r : Except FetchExc α}
    (h : timedOut r = true) : ∃ e, r = .error e ∧ isTimeout e = true := by
  cases r with
  | ok a => cases h
  | error e => exact ⟨e, rfl, h⟩

theorem retryFrom_ok {α : Type} {f : Nat → Except FetchExc α} {n : Nat}
    {a : α} (h : f n = .ok a) (rem : Nat) :
    retryFrom f n rem = (.ok a, n) := by
  cases rem <;> simp [retryFrom, h]

theorem retryFrom_noRetry {α : Type} {f : Nat → Except FetchExc α} {n : Nat}
    {e : FetchExc} (h : f n = .error e) (hi : isTimeout e = false)
    (rem : Nat) : retryFrom f n rem = (.exc e, n) := by
  cases rem <;> simp [retryFrom, h, hi]

theorem retryFrom_step {α : Type} {f : Nat → Except FetchExc α} {n : Nat}
    {e : FetchExc} (h : f n = .error e) (hi : isTimeout e = true)
    {rem : Nat} (hr : rem ≠ 0) :
    retryFrom f n rem = retryFrom f (n + 1) (rem - 1) := by
  cases rem with
  | zero => exact absurd rfl hr
  | succ r => simp [retryFrom, h, hi]

theorem retryFrom_exhaust {α : Type} {f : Nat → Except FetchExc α} {n : Nat}
    {e : FetchExc} (h : f n = .error e) (hi : isTimeout e = true) :
    retryFrom f n 0 = (.retryError e, n) := by
  simp [retryFrom, h, hi]

/-- CLAIM C3 counterexample: when every attempt raises the same Timeout,
the call does not surface that Timeout unchanged — it produces tenacity's
RetryError wrapper around the last attempt (reraise defaults to False), a
distinct outcome from the raw exception. -/
theorem retry_if_timeout_wraps_exhausted :
    retry_if_timeout (fun _ => (.error (.timeout 0) : Except FetchExc Nat))
      = (.retryError (.timeout 0), 5) ∧
    (CallOutcome.retryError (.timeout 0) : CallOutcome Nat)
      ≠ .exc (.timeout 0) := by
  exact ⟨rfl, by decide⟩

/-- CLAIM C3 as amended: a Timeout-class error is retried up to the attempt
ceiling of 5; a definitive not-found response is raised immediately on its
first attempt and never retried; and when all 5 attempts raise transient
errors, the call raises tenacity's RetryError wrapping the fifth attempt's
transient error rather than the bare error. -/
theorem retry_if_timeout_policy {α : Type} (f : Nat → Except FetchExc α) :
    (∀ e, f 1 = .error e → isTimeout e = false →
      retry_if_timeout f = (.exc e, 1)) ∧
    (∀ n a, 1 ≤ n → n ≤ 5 →
      (∀ k, 1 ≤ k → k < n → timedOut (f k) = true) →
      f n = .ok a → retry_if_timeout f = (.ok a, n)) ∧
    ((∀ k, 1 ≤ k → k ≤ 5 → timedOut (f k) = true) →
      ∃ e, f 5 = .error e ∧ isTimeout e = true ∧
        retry_if_timeout f = (.retryError e, 5)) := by
  refine ⟨?_, ?_, ?_⟩
  · intro e h1 hnf
    rw [retry_if_timeout, retryFrom_noRetry h1 hnf]
  · intro n a hn1 hn5 hk hok
    interval_cases n
    · rw [retry_if_timeout, retryFrom_ok hok]
    · obtain ⟨e1, he1, hi1⟩ := timedOut_elim (hk 1 (by omega) (by omega))
      rw [retry_if_timeout, retryFrom_step he1 hi1 (by omega)]
      rw [show (1 + 1 : Nat) = 2 from rfl, show (4 - 1 : Nat) = 3 from rfl]
      rw [retryFrom_ok hok]
    · obtain ⟨e1, he1, hi1⟩ := timedOut_elim (hk 1 (by omega) (by omega))
      obtain ⟨e2, he2, hi2⟩ := timedOut_elim (hk 2 (by omega) (by omega))
      rw [retry_if_timeout, retryFrom_step he1 hi1 (by omega)]
      rw [show (1 + 1 : Nat) = 2 from rfl, show (4 - 1 : Nat) = 3 from rfl]
      rw [retryFrom_step he2 hi2 (by omega)]
      rw [show (2 + 1 : Nat) = 3 from rfl, show (3 - 1 : Nat) = 2 from rfl]
      rw [retryFrom_ok hok]
    · obtain ⟨e1, he1, hi1⟩ := timedOut_elim (hk 1 (by omega) (by omega))
      obtain ⟨e2, he2, hi2⟩ := timedOut_elim (hk 2 (by omega) (by omega))
      obtain ⟨e3, he3, hi3⟩ := timedOut_elim (hk 3 (by omega) (by omega))
      rw [retry_if_timeout, retryFrom_step he1 hi1 (by omega)]
      rw [show (1 + 1 : Nat) = 2 from rfl, show (4 - 1 : Nat) = 3 from rfl]
      rw [retryFrom_step he2 hi2 (by omega)]
      rw [show (2 + 1 : Nat) = 3 from rfl, show (3 - 1 : Nat) = 2 from rfl]
      rw [retryFrom_step he3 hi3 (by omega)]
      rw [show (3 + 1 : Nat) = 4 from rfl, show (2 - 1 : Nat) = 1 from rfl]
      rw [retryFrom_ok hok]
    · obtain ⟨e1, he1, hi1⟩ := timedOut_elim (hk 1 (by omega) (by omega))
      obtain ⟨e2, he2, hi2⟩ := timedOut_elim (hk 2 (by omega) (by omega))
      obtain ⟨e3, he3, hi3⟩ := timedOut_elim (hk 3 (by omega) (by omega))
      obtain ⟨e4, he4, hi4⟩ := timedOut_elim (hk 4 (by omega) (by omega))
      rw [retry_if_timeout, retryFrom_step he1 hi1 (by omega)]
      rw [show (1 + 1 : Nat) = 2 from rfl, show (4 - 1 : Nat) = 3 from rfl]
      rw [retryFrom_step he2 hi2 (by omega)]
      rw [show (2 + 1 : Nat) = 3 from rfl, show (3 - 1 : Nat) = 2 from rfl]
      rw [retryFrom_step he3 hi3 (by omega)]
      rw [show (3 + 1 : Nat) = 4 from rfl, show (2 - 1 : Nat) = 1 from rfl]
      rw [retryFrom_step he4 hi4 (by omega)]
      rw [show (4 + 1 : Nat) = 5 from rfl, show (1 - 1 : Nat) = 0 from rfl]
      rw [retryFrom_ok hok]
  · intro hk
    obtain ⟨e1, he1, hi1⟩ := timedOut_elim (hk 1 (by omega) (by omega))
    obtain ⟨e2, he2, hi2⟩ := timedOut_elim (hk 2 (by omega) (by omega))
    obtain ⟨e3, he3, hi3⟩ := timedOut_elim (hk 3 (by omega) (by omega))
    obtain ⟨e4, he4, hi4⟩ := timedOut_elim (hk 4 (by omega) (by omega))
    obtain ⟨e5, he5, hi5⟩ := timedOut_elim (hk 5 (by omega) (by omega))
    refine ⟨e5, he5, hi5, ?_⟩
    rw [retry_if_timeout, retryFrom_step he1 hi1 (by omega)]
    rw [show (1 + 1 : Nat) = 2 from rfl, show (4 - 1 : Nat) = 3 from rfl]
    rw [retryFrom_step he2 hi2 (by omega)]
    rw [show (2 + 1 : Nat) = 3 from rfl, show (3 - 1 : Nat) = 2 from rfl]
    rw [retryFrom_step he3 hi3 (by omega)]
    rw [show (3 + 1 : Nat) = 4 from rfl, show (2 - 1 : Nat) = 1 from rfl]
    rw [retryFrom_step he4 hi4 (by omega)]
    rw [show (4 + 1 : Nat) = 5 from rfl, show (1 - 1 : Nat) = 0 from rfl]
    rw [retryFrom_exhaust he5 hi5]

/-- CLAIM C3 witness: a call whose first two attempts time out and whose
third succeeds returns the third attempt's value, and a call whose first
attempt hits a not-found page raises it immediately. -/
theorem retry_if_timeout_policy_witness :
    retry_if_timeout
        (fun k => if k < 3 then .error (.timeout k) else (.ok 42 : Except FetchExc Nat))
      = (.ok 42, 3) ∧
    retry_if_timeout (fun _ => (.error (.notFound 9) : Except FetchExc Nat))
      = (.exc (.notFound 9), 1) := by
  constructor
  · exact (retry_if_timeout_policy
        (fun k => if k < 3 then .error (.timeout k) else (.ok 42 : Except FetchExc Nat))).2.1
      3 42 (by omega) (by omega)
      (by intro k h1 h2; interval_cases k <;> decide)
      rfl
  · exact (retry_if_timeout_policy
        (fun _ => (.error (.notFound 9) : Except FetchExc Nat))).1
      (.notFound 9) rfl (by decide)

/-! ## Resource resolver (src/khinsider/api.py get_album, get_track)

Both functions are wrapped by functools.cache (the cache imported at the
top of api.py), which memoizes per argument tuple and stores nothing when
the call raises.  The Page Fetcher/Parser collaborators behind scraper.get,
khinsider_object_exists and the parser module are an explicit environment;
network activity is recorded as the list of page urls fetched.  Album
fields not consulted by any claim (year, type, thumbnails, publisher) are
omitted from the embedded model. -/

/-- Errors crossing the resolver: a network timeout, the
ObjectDoesNotExist raised by validators.khinsider_object_exists, and the
ValueError raised by api.get_track when the page has no audio tag. -/
inductive ApiErr
  | timeout (eid : Nat)
  | notFound (eid : Nat)
  | noAudio
  deriving DecidableEq, Repr

/-- Resolved album entity (models.Album), restricted to the fields the
claims consult. -/
structure Album where
  name : String
  slug : String
  trackUrls : List String
  deriving DecidableEq, Repr

/-- Resolved track entity (models.AudioTrack): owning album, page url and
audio file url. -/
structure AudioTrack where
  album : Album
  pageUrl : String
  mp3Url : String
  deriving DecidableEq, Repr

/-- Association-list lookup standing for a Python dict read. -/
def alookup {κ ν : Type} [DecidableEq κ] : List (κ × ν) → κ → Option ν
  | [], _ => none
  | (k', v') :: rest, k => if k' = k then some v' else alookup rest k

/-- Album page url as built inside api.get_album. -/
def album_url_str (slug : String) : String :=
  "https://downloads.khinsider.com/game-soundtracks/album/" ++ slug

/-- Track page url as built inside api.get_track. -/
def track_url_str (albumSlug trackName : String) : String :=
  album_url_str albumSlug ++ "/" ++ trackName

/-- External collaborators of api.py: the combined outcome of fetching,
existence-checking and parsing the album page of a slug; the outcome of
fetching and existence-checking a track page; and parser.parse_track_data
on the fetched track html (none when no audio tag is present). -/
structure ApiEnv where
  albumPage : String → Except ApiErr Album
  trackPageHtml : String → String → Except ApiErr String
  parseTrackData : String → Option String

/-- Memoization state of api.py: functools.cache tables of get_album
(keyed by slug) and get_track (keyed by the (track_name, album_slug)
argument tuple), plus the log of page urls fetched through scraper.get. -/
structure ApiState where
  albumCache : List (String × Album)
  trackCache : List ((String × String) × AudioTrack)
  fetchedUrls : List String

/-- Embedding of api.get_album under functools.cache: a memoized slug is
returned without network activity; otherwise the album page is fetched
(appended to the fetch log) and only a successful result is inserted into
the memo table, a raised error leaving it unchanged. -/
def get_album (env : ApiEnv) (st : ApiState) (slug : String) :
    Except ApiErr Album × ApiState :=
  match alookup st.albumCache slug with
  | some a => (.ok a, st)
  | none =>
    let st1 :=
      { st with fetchedUrls := st.fetchedUrls ++ [album_url_str slug] }
    match env.albumPage slug with
    | .ok a => (.ok a, { st1 with albumCache := (slug, a) :: st1.albumCache })
    | .error e => (.error e, st1)

/-- Embedding of api.get_track under functools.cache, following the
source's order: memo lookup on the argument tuple; on a miss, fetch of the
track page and existence check; then get_album on the album slug (itself
cache-checked); then parse_track_data, whose absence raises; finally the
successful AudioTrack is memoized. -/
def get_track (env : ApiEnv) (st : ApiState) (trackName albumSlug : String) :
    Except ApiErr AudioTrack × ApiState :=
  match alookup st.trackCache (trackName, albumSlug) with
  | some t => (.ok t, st)
  | none =>
    let url := track_url_str albumSlug trackName
    let st1 := { st with fetchedUrls := st.fetchedUrls ++ [url] }
    match env.trackPageHtml trackName albumSlug with
    | .error e => (.error e, st1)
    | .ok html =>
      match get_album env st1 albumSlug with
      | (.error e, st2) => (.error e, st2)
      | (.ok album, st2) =>
        match env.parseTrackData html with
        | none => (.error .noAudio, st2)
        | some mp3 =>
          let tr : AudioTrack :=
            { album := album, pageUrl := url, mp3Url := mp3 }
          (.ok tr,
           { st2 with trackCache := ((trackName, albumSlug), tr) :: st2.trackCache })

theorem album_url_str_ne_track_url_str (slug trackName : String) :
    album_url_str slug ≠ track_url_str slug trackName := by
  intro h
  have hlen := congrArg String.length h
  rw [track_url_str] at hlen
  simp only [String.length_append] at hlen
  have hone : ("/" : String).length = 1 := rfl
  rw [hone] at hlen
  omega

/-- CLAIM C4: resolution is memoized on the reference's natural identity
and only successes are stored.  First, a successful get_album makes the
immediately repeated call return the same album with no state change (in
particular no new fetch).  Second, a failed get_album leaves both memo
tables unchanged, and the repeated call fetches the album page again.
Third, get_track on a slug whose album is already memoized performs no
album-page fetch: its network activity is at most the track page itself.
Fourth, a successful get_track makes the repeated call with the same
(track name, slug) pair return the same track with no state change. -/
theorem resolver_memoizes_successes_only :
    (∀ (env : ApiEnv) (st : ApiState) (slug : String) (a : Album)
        (st' : ApiState),
      get_album env st slug = (.ok a, st') →
      get_album env st' slug = (.ok a, st')) ∧
    (∀ (env : ApiEnv) (st : ApiState) (slug : String) (e : ApiErr)
        (st' : ApiState),
      get_album env st slug = (.error e, st') →
      st'.albumCache = st.albumCache ∧ st'.trackCache = st.trackCache ∧
      (get_album env st' slug).2.fetchedUrls
        = st'.fetchedUrls ++ [album_url_str slug]) ∧
    (∀ (env : ApiEnv) (st : ApiState) (trackName slug : String) (a : Album),
      alookup st.albumCache slug = some a →
      ∃ extra, (get_track env st trackName slug).2.fetchedUrls
          = st.fetchedUrls ++ extra ∧
        album_url_str slug ∉ extra) ∧
    (∀ (env : ApiEnv) (st : ApiState) (trackName slug : String)
        (tr : AudioTrack) (st' : ApiState),
      get_track env st trackName slug = (.ok tr, st') →
      get_track env st' trackName slug = (.ok tr, st')) := by
  refine ⟨?_, ?_, ?_, ?_⟩
  · intro env st slug a st' h
    cases hl : alookup st.albumCache slug with
    | some a0 =>
      simp only [get_album, hl] at h
      obtain ⟨h1, h2⟩ := Prod.mk.injEq .. ▸ h
      injection h1 with h1
      subst h1; subst h2
      simp only [get_album, hl]
    | none =>
      simp only [get_album, hl] at h
      cases hp : env.albumPage slug with
      | ok a0 =>
        rw [hp] at h
        simp only [Prod.mk.injEq] at h
        obtain ⟨h1, h2⟩ := h
        injection h1 with h1
        subst h1; subst h2
        simp [get_album, alookup]
      | error e0 =>
        rw [hp] at h
        simp only [Prod.mk.injEq] at h
        exact absurd h.1 (by intro hx; cases hx)
  · intro env st slug e st' h
    cases hl : alookup st.albumCache slug with
    | some a0 =>
      simp only [get_album, hl] at h
      simp only [Prod.mk.injEq] at h
      exact absurd h.1 (by intro hx; cases hx)
    | none =>
      simp only [get_album, hl] at h
      cases hp : env.albumPage slug with
      | ok a0 =>
        rw [hp] at h
        simp only [Prod.mk.injEq] at h
        exact absurd h.1 (by intro hx; cases hx)
      | error e0 =>
        rw [hp] at h
        simp only [Prod.mk.injEq] at h
        obtain ⟨h1, h2⟩ := h
        subst h2
        refine ⟨rfl, rfl, ?_⟩
        simp only [get_album, hl, hp]
  · intro env st trackName slug a hl
    cases ht : alookup st.trackCache (trackName, slug) with
    | some t0 =>
      refine ⟨[], ?_, by simp⟩
      simp only [get_track, ht]
      simp
    | none =>
      refine ⟨[track_url_str slug trackName], ?_, ?_⟩
      · simp only [get_track, ht]
        cases hh : env.trackPageHtml trackName slug with
        | error e0 => simp
        | ok html =>
          simp only
          have hga : get_album env
              { st with fetchedUrls := st.fetchedUrls ++ [track_url_str slug trackName] }
              slug
              = (.ok a,
                 { st with fetchedUrls := st.fetchedUrls ++ [track_url_str slug trackName] }) := by
            simp only [get_album, hl]
          rw [hga]
          cases hpd : env.parseTrackData html with
          | none => simp
          | some mp3 => simp
      · intro hmem
        simp only [List.mem_singleton] at hmem
        exact album_url_str_ne_track_url_str slug trackName hmem
  · intro env st trackName slug tr st' h
    cases ht : alookup st.trackCache (trackName, slug) with
    | some t0 =>
      simp only [get_track, ht] at h
      simp only [Prod.mk.injEq] at h
      obtain ⟨h1, h2⟩ := h
      injection h1 with h1
      subst h1; subst h2
      simp only [get_track, ht]
    | none =>
      simp only [get_track, ht] at h
      cases hh : env.trackPageHtml trackName slug with
      | error e0 =>
        rw [hh] at h
        simp only [Prod.mk.injEq] at h
        exact absurd h.1 (by intro hx; cases hx)
      | ok html =>
        rw [hh] at h
        simp only at h
        cases hga : get_album env
            { st with fetchedUrls := st.fetchedUrls ++ [track_url_str slug trackName] }
            slug with
        | mk res st2 =>
          rw [hga] at h
          cases res with
          | error e0 =>
            simp only [Prod.mk.injEq] at h
            exact absurd h.1 (by intro hx; cases hx)
          | ok album =>
            simp only at h
            cases hpd : env.parseTrackData html with
            | none =>
              rw [hpd] at h
              simp only [Prod.mk.injEq] at h
              exact absurd h.1 (by intro hx; cases hx)
            | some mp3 =>
              rw [hpd] at h
              simp only [Prod.mk.injEq] at h
              obtain ⟨h1, h2⟩ := h
              injection h1 with h1
              subst h1; subst h2
              simp [get_track, alookup]

/-- Concrete resolved album for the resolver witness. -/
def albumW : Album :=
  { name := "MOTHER 3", slug := "mother-3",
    trackUrls := [track_url_str "mother-3" "01.mp3"] }

/-- Concrete collaborator environment for the resolver witness. -/
def envW : ApiEnv :=
  { albumPage := fun slug =>
      if slug = "mother-3" then .ok albumW else .error (.notFound 0)
    trackPageHtml := fun _ _ => .ok "html"
    parseTrackData := fun _ => some "audio.mp3" }

/-- CLAIM C4 witness: a concrete environment and empty state; the second
resolution of the album and of the track return the memoized entities with
unchanged state, and a get_track on a memoized album slug fetches only the
track page. -/
theorem resolver_memoizes_successes_only_witness :
    get_album envW
        { albumCache := [("mother-3", albumW)], trackCache := [],
          fetchedUrls := [album_url_str "mother-3"] }
        "mother-3"
      = (.ok albumW,
         { albumCache := [("mother-3", albumW)], trackCache := [],
           fetchedUrls := [album_url_str "mother-3"] }) ∧
    (∃ extra,
      (get_track envW
          { albumCache := [("mother-3", albumW)], trackCache := [],
            fetchedUrls := [album_url_str "mother-3"] }
          "01.mp3" "mother-3").2.fetchedUrls
        = [album_url_str "mother-3"] ++ extra ∧
      album_url_str "mother-3" ∉ extra) := by
  constructor
  · exact (resolver_memoizes_successes_only).1 envW
      { albumCache := [], trackCache := [], fetchedUrls := [] }
      "mother-3" albumW
      { albumCache := [("mother-3", albumW)], trackCache := [],
        fetchedUrls := [album_url_str "mother-3"] }
      (by simp only [get_album, alookup]; rfl)
  · exact (resolver_memoizes_successes_only).2.2.1 envW
      { albumCache := [("mother-3", albumW)], trackCache := [],
        fetchedUrls := [album_url_str "mother-3"] }
      "01.mp3" "mother-3" albumW
      (by simp [alookup])

/-! ## Download engine aggregation (src/khinsider/downloader.py
Downloader.download and download_many; src/khinsider/files.py _download
shares the same aggregation shape)

The per-track work (resolve the track, fetch the audio bytes, write the
file) and the album resolution are collaborators behind an environment:
what the aggregation itself does with their outcomes is exactly what the
claims C1 and C5 are about.  The generator is modelled as driven to
completion, so an exception raised while producing one url's items aborts
the remaining urls. -/

/-- Errors surfacing in the download engine: InvalidUrl for an
unclassifiable input url, and any exception a task or album resolution
raised, carrying an identity. -/
inductive DlErr
  | invalidUrl
  | failed (eid : Nat)
  deriving DecidableEq, Repr

/-- Collaborators of Downloader.download, per url: the track_urls of the
album resolved through api.get_album for a slug (or the exception that
resolution raised), and the outcome of one fetch_and_download_track task
on a track page url — the written path, or the exception the task raised. -/
structure DlEnv where
  albumTrackUrls : List Char → Except DlErr (List (List Char))
  trackOutcome : List Char → Except DlErr (List Char)

/-- Embedding of downloader.Downloader.download: classify the url, raising
InvalidUrl when the regex does not match; for a track url run the single
task inline, propagating its exception; for an album url resolve the album
(propagating its exception), submit one pool task per track url, then
yield task.result() for exactly the tasks whose task.exception() is unset,
in submission order — failed tasks are skipped and no failure marker is
yielded. -/
def downloader_download (env : DlEnv) (url : List Char) :
    Except DlErr (List (List Char)) :=
  match parse_khinsider_url url with
  | none => .error .invalidUrl
  | some (slug, trackName) =>
    if trackName.isEmpty then
      match env.albumTrackUrls slug with
      | .error e => .error e
      | .ok trackUrls =>
        .ok (trackUrls.filterMap (fun u => (env.trackOutcome u).toOption))
    else
      match env.trackOutcome url with
      | .ok p => .ok [p]
      | .error e => .error e

/-- Embedding of downloader.download_many consumed to completion: the
urls' outputs are concatenated in order, and an exception raised while
producing any url's output aborts the whole call. -/
def download_many (env : DlEnv) : List (List Char) →
    Except DlErr (List (List Char))
  | [] => .ok []
  | url :: rest =>
    match downloader_download env url with
    | .error e => .error e
    | .ok ps =>
      match download_many env rest with
      | .error e => .error e
      | .ok qs => .ok (ps ++ qs)

theorem filterMap_length_of_all_some {α β : Type} (f : α → Option β) :
    ∀ l : List α, (∀ a ∈ l, (f a).isSome = true) →
      (l.filterMap f).length = l.length := by
  intro l
  induction l with
  | nil => intro _; rfl
  | cons x xs ih =>
    intro h
    obtain ⟨b, hb⟩ := Option.isSome_iff_exists.mp (h x (by simp))
    simp [List.filterMap_cons, hb, ih (fun a ha => h a (by simp [ha]))]

theorem filterMap_length_of_one_none {α β : Type} [BEq α] [LawfulBEq α]
    (f : α → Option β) (bad : α) (hbad : f bad = none) :
    ∀ l : List α, l.count bad = 1 →
      (∀ a ∈ l, a ≠ bad → (f a).isSome = true) →
      (l.filterMap f).length = l.length - 1 := by
  intro l
  induction l with
  | nil => intro h _; cases h
  | cons x xs ih =>
    intro hcount hgood
    by_cases hx : x = bad
    · subst hx
      have h0 : xs.count x = 0 := by
        have := hcount
        rw [List.count_cons_self] at this
        omega
      have hnot : x ∉ xs := List.count_eq_zero.mp h0
      have hall : ∀ a ∈ xs, (f a).isSome = true := by
        intro a ha
        exact hgood a (by simp [ha]) (fun he => hnot (he ▸ ha))
      simp [List.filterMap_cons, hbad,
        filterMap_length_of_all_some f xs hall]
    · have hcx : xs.count bad = 1 := by
        rw [List.count_cons_of_ne (Ne.symm hx)] at hcount
        exact hcount
      have hlen : 1 ≤ xs.length := by
        have := List.count_le_length (l := xs) (a := bad)
        omega
      obtain ⟨b, hb⟩ := Option.isSome_iff_exists.mp
        (hgood x (by simp) hx)
      have := ih hcx (fun a ha hne => hgood a (by simp [ha]) hne)
      simp [List.filterMap_cons, hb, this]
      omega

/-- Concrete environment for the C1 counterexample: one album whose
resolution lists exactly one track url, whose download task raises. -/
def envC1 : DlEnv :=
  { albumTrackUrls := fun _ =>
      .ok [track_page_url "a".toList "t1.mp3".toList]
    trackOutcome := fun _ => .error (.failed 0) }

/-- CLAIM C1 counterexample: an album reference resolving to exactly one
track whose task fails yields zero outcomes from download_many — not the
claimed one outcome per track regardless of failures: the failed task is
silently dropped and no failure marker is emitted. -/
theorem download_many_drops_failed_tasks :
    envC1.albumTrackUrls "a".toList
      = .ok [track_page_url "a".toList "t1.mp3".toList] ∧
    download_many envC1 [album_url "a".toList] = .ok [] ∧
    ([] : List (List Char)).length ≠ 1 := by
  exact ⟨rfl, rfl, by decide⟩

/-- CLAIM C1 as amended: download_many yields one outcome per track task
that completed without raising and nothing for a failed task.  An album
url contributes exactly the successful tasks' paths, hence N outcomes when
all of its N tasks succeed, and a mix of one album url with N
all-succeeding tracks plus two succeeding standalone track urls yields
exactly N + 2 outcomes. -/
theorem download_many_output_counts (env : DlEnv) :
    (∀ url slug trackUrls,
      parse_khinsider_url url = some (slug, []) →
      env.albumTrackUrls slug = .ok trackUrls →
      downloader_download env url
        = .ok (trackUrls.filterMap (fun u => (env.trackOutcome u).toOption))) ∧
    (∀ url slug trackUrls,
      parse_khinsider_url url = some (slug, []) →
      env.albumTrackUrls slug = .ok trackUrls →
      (∀ u ∈ trackUrls, ((env.trackOutcome u).toOption).isSome = true) →
      ∃ out, download_many env [url] = .ok out ∧
        out.length = trackUrls.length) ∧
    (∀ aurl slug trackUrls t1 s1 n1 p1 t2 s2 n2 p2,
      parse_khinsider_url aurl = some (slug, []) →
      env.albumTrackUrls slug = .ok trackUrls →
      (∀ u ∈ trackUrls, ((env.trackOutcome u).toOption).isSome = true) →
      parse_khinsider_url t1 = some (s1, n1) → n1 ≠ [] →
      env.trackOutcome t1 = .ok p1 →
      parse_khinsider_url t2 = some (s2, n2) → n2 ≠ [] →
      env.trackOutcome t2 = .ok p2 →
      ∃ out, download_many env [aurl, t1, t2] = .ok out ∧
        out.length = trackUrls.length + 2) := by
  have hone : ∀ url slug trackUrls,
      parse_khinsider_url url = some (slug, []) →
      env.albumTrackUrls slug = .ok trackUrls →
      downloader_download env url
        = .ok (trackUrls.filterMap (fun u => (env.trackOutcome u).toOption)) := by
    intro url slug trackUrls hp ha
    simp [downloader_download, hp, ha]
  refine ⟨hone, ?_, ?_⟩
  · intro url slug trackUrls hp ha hall
    refine ⟨trackUrls.filterMap (fun u => (env.trackOutcome u).toOption),
      ?_, filterMap_length_of_all_some _ trackUrls hall⟩
    simp [download_many, hone url slug trackUrls hp ha]
  · intro aurl slug trackUrls t1 s1 n1 p1 t2 s2 n2 p2
      hpa ha hall hp1 hn1 ho1 hp2 hn2 ho2
    have hne1 : n1.isEmpty = false := by
      cases n1 with
      | nil => exact absurd rfl hn1
      | cons c cs => rfl
    have hne2 : n2.isEmpty = false := by
      cases n2 with
      | nil => exact absurd rfl hn2
      | cons c cs => rfl
    have hd1 : downloader_download env t1 = .ok [p1] := by
      simp [downloader_download, hp1, hne1, ho1]
    have hd2 : downloader_download env t2 = .ok [p2] := by
      simp [downloader_download, hp2, hne2, ho2]
    refine ⟨trackUrls.filterMap (fun u => (env.trackOutcome u).toOption)
        ++ [p1] ++ [p2], ?_, ?_⟩
    · simp [download_many, hone aurl slug trackUrls hpa ha, hd1, hd2]
    · simp [filterMap_length_of_all_some _ trackUrls hall]

/-- Concrete all-succeeding environment for the C1 amended witness: one
album with two tracks, every task returning a path. -/
def envCnt : DlEnv :=
  { albumTrackUrls := fun _ =>
      .ok [track_page_url "a".toList "t1.mp3".toList,
           track_page_url "a".toList "t2.mp3".toList]
    trackOutcome := fun u => .ok ('p' :: u) }

/-- CLAIM C1 witness for the amended statement: a concrete album with two
succeeding tracks plus two succeeding standalone track urls produces 2 and
2 + 2 outcomes. -/
theorem download_many_output_counts_witness :
    (∃ out, download_many envCnt [album_url "a".toList] = .ok out ∧
      out.length = 2) ∧
    (∃ out, download_many envCnt
        [album_url "a".toList,
         track_page_url "b".toList "x.mp3".toList,
         track_page_url "b".toList "y.mp3".toList] = .ok out ∧
      out.length = 2 + 2) := by
  constructor
  · have h := (download_many_output_counts envCnt).2.1
      (album_url "a".toList) "a".toList
      [track_page_url "a".toList "t1.mp3".toList,
       track_page_url "a".toList "t2.mp3".toList]
      (by decide) rfl
      (by intro u hu; fin_cases hu <;> rfl)
    simpa using h
  · have h := (download_many_output_counts envCnt).2.2
      (album_url "a".toList) "a".toList
      [track_page_url "a".toList "t1.mp3".toList,
       track_page_url "a".toList "t2.mp3".toList]
      (track_page_url "b".toList "x.mp3".toList) "b".toList "x.mp3".toList
      ('p' :: track_page_url "b".toList "x.mp3".toList)
      (track_page_url "b".toList "y.mp3".toList) "b".toList "y.mp3".toList
      ('p' :: track_page_url "b".toList "y.mp3".toList)
      (by decide) rfl
      (by intro u hu; fin_cases hu <;> rfl)
      (by decide) (by decide) rfl
      (by decide) (by decide) rfl
    simpa using h

/-- CLAIM C5: failure isolation inside an album — when exactly one of the
album's N track tasks raises and every sibling task succeeds, the
aggregate call still returns normally (it does not raise for the per-task
failure), every sibling's path appears in the output, and the output has
exactly N - 1 entries. -/
theorem download_many_failure_isolation (env : DlEnv)
    (url slug : List Char) (trackUrls : List (List Char))
    (bad : List Char) (e : DlErr)
    (hp : parse_khinsider_url url = some (slug, []))
    (ha : env.albumTrackUrls slug = .ok trackUrls)
    (hbad : env.trackOutcome bad = .error e)
    (hcount : trackUrls.count bad = 1)
    (hgood : ∀ u ∈ trackUrls, u ≠ bad →
      ((env.trackOutcome u).toOption).isSome = true) :
    ∃ out, download_many env [url] = .ok out ∧
      out.length = trackUrls.length - 1 ∧
      ∀ u ∈ trackUrls, ∀ p, env.trackOutcome u = .ok p → p ∈ out := by
  have hnone : (env.trackOutcome bad).toOption = none := by
    rw [hbad]; rfl
  refine ⟨trackUrls.filterMap (fun u => (env.trackOutcome u).toOption),
    ?_, ?_, ?_⟩
  · simp [download_many, downloader_download, hp, ha]
  · exact filterMap_length_of_one_none _ bad hnone trackUrls hcount hgood
  · intro u hu p hpok
    exact List.mem_filterMap.mpr ⟨u, hu, by rw [hpok]; rfl⟩

/-- Concrete environment for the C5 witness: an album of three tracks
whose middle task raises while the others succeed. -/
def envC5 : DlEnv :=
  { albumTrackUrls := fun _ =>
      .ok [track_page_url "a".toList "t1.mp3".toList,
           track_page_url "a".toList "t2.mp3".toList,
           track_page_url "a".toList "t3.mp3".toList]
    trackOutcome := fun u =>
      if u = track_page_url "a".toList "t2.mp3".toList then
        .error (.failed 1)
      else .ok ('p' :: u) }

/-- CLAIM C5 witness: on the concrete three-track album with one failing
task, the call returns normally with the two sibling paths. -/
theorem download_many_failure_isolation_witness :
    ∃ out, download_many envC5 [album_url "a".toList] = .ok out ∧
      out.length = 3 - 1 ∧
      ∀ u ∈ [track_page_url "a".toList "t1.mp3".toList,
             track_page_url "a".toList "t2.mp3".toList,
             track_page_url "a".toList "t3.mp3".toList],
        ∀ p, envC5.trackOutcome u = .ok p → p ∈ out := by
  have h := download_many_failure_isolation envC5
    (album_url "a".toList) "a".toList
    [track_page_url "a".toList "t1.mp3".toList,
     track_page_url "a".toList "t2.mp3".toList,
     track_page_url "a".toList "t3.mp3".toList]
    (track_page_url "a".toList "t2.mp3".toList) (.failed 1)
    (by decide) rfl rfl (by decide)
    (by intro u hu hne; fin_cases hu <;> first | rfl | exact absurd rfl hne)
  simpa using h

/-! ## Download scheduling traces (src/khinsider/_khinsider.py
download_tracks; src/khinsider/downloader.py download_many)

The scheduling claim is settled on the order of the blocking operations of
the driving thread, recorded as an event trace.  download_tracks submits
one pool task per standalone track url, then one scrape task per album
url, and as as_completed yields the scrape tasks — in an arbitrary
completion order — immediately submits the completed album's track
downloads.  download_many (downloader.py and files.py alike), consumed to
completion, handles one url at a time: it blocks on get_album, submits the
album's tasks and then blocks on each task's task.exception() before the
next url is even classified.  Traces model runs where every resolution and
scrape succeeds; task outcomes do not affect the event order. -/

/-- Events of the download drivers: submission of a
fetch_and_download_track task, submission of an album scrape task, the
driver observing a scrape task's completion (as_completed plus
scrape_task.result()), the driver observing a download task's completion
(task.exception()), the driver's blocking get_album call, and an inline
single-track download. -/
inductive DlEvent
  | submitTrackDl (u : List Char)
  | submitScrape (a : List Char)
  | scrapeDone (a : List Char)
  | taskDone (u : List Char)
  | albumFetch (slug : List Char)
  | runTrackInline (u : List Char)
  deriving DecidableEq, Repr

/-- Embedding of _khinsider.separate_album_and_track_urls: urls the regex
rejects are logged and skipped; a nonempty second captured segment routes
a url to the track list, otherwise to the album list, preserving order. -/
def separate_album_and_track_urls :
    List (List Char) → List (List Char) × List (List Char)
  | [] => ([], [])
  | u :: rest =>
    let sep := separate_album_and_track_urls rest
    match parse_khinsider_url u with
    | none => sep
    | some (_, t) =>
      if t.isEmpty then (u :: sep.1, sep.2) else (sep.1, u :: sep.2)

/-- Driver event trace of _khinsider.download_tracks on runs where every
scrape succeeds: standalone track downloads are submitted first, then the
album scrape tasks; as_completed yields the scrape tasks in the given
completion order, and each completed album's downloads are submitted
immediately, before any later completion is observed.  scrapeResult gives
each album url's scraped track urls. -/
def download_tracks_trace (scrapeResult : List Char → List (List Char))
    (urls : List (List Char)) (completionOrder : List (List Char)) :
    List DlEvent :=
  let sep := separate_album_and_track_urls urls
  sep.2.map .submitTrackDl
    ++ sep.1.map .submitScrape
    ++ completionOrder.flatMap
        (fun a => .scrapeDone a :: (scrapeResult a).map .submitTrackDl)

/-- Driver event trace of one downloader.Downloader.download call on a run
where the resolution succeeds and every task completes. -/
def downloader_download_trace (albumTracks : List Char → List (List Char))
    (url : List Char) : List DlEvent :=
  match parse_khinsider_url url with
  | none => []
  | some (slug, trackName) =>
    if trackName.isEmpty then
      .albumFetch slug
        :: ((albumTracks slug).map .submitTrackDl
            ++ (albumTracks slug).map .taskDone)
    else [.runTrackInline url]

/-- Driver event trace of downloader.download_many consumed to
completion: one url after the other, stopping at an unclassifiable url
(InvalidUrl aborts the iteration). -/
def download_many_trace (albumTracks : List Char → List (List Char)) :
    List (List Char) → List DlEvent
  | [] => []
  | url :: rest =>
    match parse_khinsider_url url with
    | none => []
    | some _ =>
      downloader_download_trace albumTracks url
        ++ download_many_trace albumTracks rest

/-- Occurrence of one event strictly before an occurrence of another in a
trace. -/
def precedes (tr : List DlEvent) (e1 e2 : DlEvent) : Prop :=
  ∃ l1 l2 l3, tr = l1 ++ e1 :: (l2 ++ e2 :: l3)

/-- Comparison of the first occurrences of two events in a trace. -/
def eventBefore (tr : List DlEvent) (e1 e2 : DlEvent) : Bool :=
  match tr.findIdx? (fun x => decide (x = e1)),
      tr.findIdx? (fun x => decide (x = e2)) with
  | some i, some j => decide (i < j)
  | _, _ => false

/-- Concrete two-album resolution map for the C9 counterexample. -/
def albumTracksC9 : List Char → List (List Char) := fun slug =>
  if slug = "a".toList then [track_page_url "a".toList "t1.mp3".toList]
  else if slug = "b".toList then [track_page_url "b".toList "t2.mp3".toList]
  else []

/-- CLAIM C9 counterexample: with two album references, download_many's
driver observes the completion of the first album's download task strictly
before it begins expanding the second album, and never the other way
round — expansion of a later album reference does not proceed concurrently
with the earlier album's enqueued downloads, it is deferred until they
have completed. -/
theorem download_many_trace_serializes_albums :
    download_many_trace albumTracksC9
        [album_url "a".toList, album_url "b".toList]
      = [.albumFetch "a".toList,
         .submitTrackDl (track_page_url "a".toList "t1.mp3".toList),
         .taskDone (track_page_url "a".toList "t1.mp3".toList),
         .albumFetch "b".toList,
         .submitTrackDl (track_page_url "b".toList "t2.mp3".toList),
         .taskDone (track_page_url "b".toList "t2.mp3".toList)] ∧
    eventBefore
        (download_many_trace albumTracksC9
          [album_url "a".toList, album_url "b".toList])
        (.taskDone (track_page_url "a".toList "t1.mp3".toList))
        (.albumFetch "b".toList) = true ∧
    eventBefore
        (download_many_trace albumTracksC9
          [album_url "a".toList, album_url "b".toList])
        (.albumFetch "b".toList)
        (.taskDone (track_page_url "a".toList "t1.mp3".toList)) = false := by
  refine ⟨by decide, by decide, by decide⟩

/-- CLAIM C9 as amended: in download_tracks, expansion of different album
references proceeds concurrently with already-enqueued track downloads —
every standalone download is submitted before any expansion completion is
observed, each album's downloads are submitted as soon as its own scrape
completes, and the first-completed album's downloads are submitted before
any later album's expansion is observed, whatever the completion order.
In download_many, by contrast, each track download still begins as soon as
its own album's expansion is known, but references are processed strictly
sequentially: a later album's expansion starts only after the completion
of every earlier album's downloads has been observed. -/
theorem download_scheduling (scrapeResult : List Char → List (List Char))
    (urls : List (List Char)) (completionOrder : List (List Char)) :
    (∀ u ∈ (separate_album_and_track_urls urls).2, ∀ a ∈ completionOrder,
      precedes (download_tracks_trace scrapeResult urls completionOrder)
        (.submitTrackDl u) (.scrapeDone a)) ∧
    (∀ a ∈ completionOrder, ∀ u ∈ scrapeResult a,
      precedes (download_tracks_trace scrapeResult urls completionOrder)
        (.scrapeDone a) (.submitTrackDl u)) ∧
    (∀ a rest, completionOrder = a :: rest →
      ∀ u ∈ scrapeResult a, ∀ b ∈ rest,
        precedes (download_tracks_trace scrapeResult urls completionOrder)
          (.submitTrackDl u) (.scrapeDone b)) ∧
    (∀ albumTracks u1 u2 s1 s2 rest,
      parse_khinsider_url u1 = some (s1, ([] : List Char)) →
      parse_khinsider_url u2 = some (s2, ([] : List Char)) →
      ∀ tu ∈ albumTracks s1,
        precedes (download_many_trace albumTracks (u1 :: u2 :: rest))
          (.taskDone tu) (.albumFetch s2)) := by
  refine ⟨?_, ?_, ?_, ?_⟩
  · intro u hu a ha
    obtain ⟨t1, t2, ht⟩ := List.append_of_mem hu
    obtain ⟨c1, c2, hc⟩ := List.append_of_mem ha
    refine ⟨t1.map .submitTrackDl,
      t2.map .submitTrackDl
        ++ (separate_album_and_track_urls urls).1.map .submitScrape
        ++ c1.flatMap
            (fun x => .scrapeDone x :: (scrapeResult x).map .submitTrackDl),
      (scrapeResult a).map .submitTrackDl
        ++ c2.flatMap
            (fun x => .scrapeDone x :: (scrapeResult x).map .submitTrackDl),
      ?_⟩
    rw [download_tracks_trace, ht, hc]
    simp [List.flatMap_append, List.map_append]
  · intro a ha u hu
    obtain ⟨c1, c2, hc⟩ := List.append_of_mem ha
    obtain ⟨r1, r2, hr⟩ := List.append_of_mem hu
    refine ⟨(separate_album_and_track_urls urls).2.map .submitTrackDl
        ++ (separate_album_and_track_urls urls).1.map .submitScrape
        ++ c1.flatMap
            (fun x => .scrapeDone x :: (scrapeResult x).map .submitTrackDl),
      r1.map .submitTrackDl,
      r2.map .submitTrackDl
        ++ c2.flatMap
            (fun x => .scrapeDone x :: (scrapeResult x).map .submitTrackDl),
      ?_⟩
    rw [download_tracks_trace, hc]
    simp [hr, List.flatMap_append, List.map_append]
  · intro a rest hco u hu b hb
    obtain ⟨r1, r2, hr⟩ := List.append_of_mem hu
    obtain ⟨b1, b2, hbb⟩ := List.append_of_mem hb
    refine ⟨(separate_album_and_track_urls urls).2.map .submitTrackDl
        ++ (separate_album_and_track_urls urls).1.map .submitScrape
        ++ [.scrapeDone a] ++ r1.map .submitTrackDl,
      r2.map .submitTrackDl
        ++ b1.flatMap
            (fun x => .scrapeDone x :: (scrapeResult x).map .submitTrackDl),
      (scrapeResult b).map .submitTrackDl
        ++ b2.flatMap
            (fun x => .scrapeDone x :: (scrapeResult x).map .submitTrackDl),
      ?_⟩
    rw [download_tracks_trace, hco, hbb]
    simp [hr, List.flatMap_append, List.map_append]
  · intro albumTracks u1 u2 s1 s2 rest h1 h2 tu htu
    obtain ⟨a1, a2, hasp⟩ := List.append_of_mem htu
    refine ⟨.albumFetch s1
        :: ((albumTracks s1).map .submitTrackDl ++ a1.map .taskDone),
      a2.map .taskDone,
      (albumTracks s2).map .submitTrackDl
        ++ (albumTracks s2).map .taskDone
        ++ download_many_trace albumTracks rest,
      ?_⟩
    have hd1 : downloader_download_trace albumTracks u1
        = .albumFetch s1
          :: ((albumTracks s1).map .submitTrackDl
              ++ (albumTracks s1).map .taskDone) := by
      simp [downloader_download_trace, h1]
    have hd2 : downloader_download_trace albumTracks u2
        = .albumFetch s2
          :: ((albumTracks s2).map .submitTrackDl
              ++ (albumTracks s2).map .taskDone) := by
      simp [downloader_download_trace, h2]
    have hall : download_many_trace albumTracks (u1 :: u2 :: rest)
        = downloader_download_trace albumTracks u1
          ++ (downloader_download_trace albumTracks u2
              ++ download_many_trace albumTracks rest) := by
      simp [download_many_trace, h1, h2]
    rw [hall, hd1, hd2, hasp]
    simp [List.map_append]

/-- Concrete inputs for the C9 amended witness: scraped track urls per
album page url, for two albums whose scrapes complete in reverse
submission order. -/
def scrapeResultC9 : List Char → List (List Char) := fun aurl =>
  if aurl = album_url "a".toList then
    [track_page_url "a".toList "t1.mp3".toList]
  else if aurl = album_url "b".toList then
    [track_page_url "b".toList "t2.mp3".toList]
  else []

/-- CLAIM C9 witness: on a concrete mixed input whose second album's
scrape completes first, the standalone download precedes both expansion
completions, the first-completed album's download is submitted before the
other album's expansion is observed, and in download_many the first
album's task completion precedes the second album's expansion. -/
theorem download_scheduling_witness :
    precedes
        (download_tracks_trace scrapeResultC9
          [track_page_url "c".toList "z.mp3".toList,
           album_url "a".toList, album_url "b".toList]
          [album_url "b".toList, album_url "a".toList])
        (.submitTrackDl (track_page_url "c".toList "z.mp3".toList))
        (.scrapeDone (album_url "a".toList)) ∧
    precedes
        (download_tracks_trace scrapeResultC9
          [track_page_url "c".toList "z.mp3".toList,
           album_url "a".toList, album_url "b".toList]
          [album_url "b".toList, album_url "a".toList])
        (.submitTrackDl
          (track_page_url "b".toList "t2.mp3".toList))
        (.scrapeDone (album_url "a".toList)) ∧
    precedes
        (download_many_trace albumTracksC9
          [album_url "a".toList, album_url "b".toList])
        (.taskDone (track_page_url "a".toList "t1.mp3".toList))
        (.albumFetch "b".toList) := by
  refine ⟨?_, ?_, ?_⟩
  · exact (download_scheduling scrapeResultC9
        [track_page_url "c".toList "z.mp3".toList,
         album_url "a".toList, album_url "b".toList]
        [album_url "b".toList, album_url "a".toList]).1
      (track_page_url "c".toList "z.mp3".toList) (by decide)
      (album_url "a".toList) (by decide)
  · exact (download_scheduling scrapeResultC9
        [track_page_url "c".toList "z.mp3".toList,
         album_url "a".toList, album_url "b".toList]
        [album_url "b".toList, album_url "a".toList]).2.2.1
      (album_url "b".toList) [album_url "a".toList] rfl
      (track_page_url "b".toList "t2.mp3".toList)
      (by decide)
      (album_url "a".toList) (by decide)
  · exact (download_scheduling scrapeResultC9 [] []).2.2.2
      albumTracksC9 (album_url "a".toList) (album_url "b".toList)
      "a".toList "b".toList [] (by decide) (by decide)
      (track_page_url "a".toList "t1.mp3".toList) (by decide)

end Khinsider
